import Mathlib

/-!
Verification of the claim-normalization and authorization layer of the
aws-apigw-jwt-auth library (src/context.ts, src/config.ts, src/errors.ts,
src/aws.ts).

JavaScript values that can occur in a JWT claim payload are modelled by
`JValue`; claim payloads are produced upstream by JSON deserialization, so
`undefined` and functions do not occur inside them.  JavaScript string
operations used by the source (trim, split on a separator class, JSON.parse,
String() coercion, JSON.stringify of a one-field object) are given explicit
executable models on Lean strings.  The process-wide mutable configuration of
config.ts is modelled by explicit state passing, and thrown exceptions by
`Except`.
-/

/-- JSON-representable JavaScript values.  Numbers keep their source lexeme:
JavaScript renders a number from its IEEE-double value, which coincides with
the lexeme for the plain integer literals that occur in claim payloads; exact
float formatting is outside this model. -/
inductive JValue where
  | null : JValue
  | bool (b : Bool) : JValue
  | num (lexeme : String) : JValue
  | str (s : String) : JValue
  | arr (elems : List JValue) : JValue
  | obj (fields : List (String × JValue)) : JValue

/-- A raw claim mapping (`JwtClaims = Record<string, unknown>`), modelled as
an association list; JavaScript object keys are unique, lookup takes the
first match. -/
def JwtClaims : Type := List (String × JValue)

/-- Property read `m[key]` on a claims object: `none` models `undefined`. -/
def jsLookup (m : JwtClaims) (key : String) : Option JValue :=
  match m with
  | [] => none
  | (k, v) :: rest => if k == key then some v else jsLookup rest key

/-- The character class matched by JavaScript's `\s` (and trimmed by
`String.prototype.trim`): ASCII whitespace, NBSP, the Unicode space
separators, the line separators and the BOM. -/
def jsWhitespaceChar (c : Char) : Bool :=
  c == ' ' || c == '\t' || c == '\n' || c == '\r' ||
  c.val == 0x0b || c.val == 0x0c || c.val == 0xa0 || c.val == 0x1680 ||
  decide (0x2000 ≤ c.val ∧ c.val ≤ 0x200a) ||
  c.val == 0x2028 || c.val == 0x2029 || c.val == 0x202f ||
  c.val == 0x205f || c.val == 0x3000 || c.val == 0xfeff

/-- Remove the whitespace prefix and suffix of a character list. -/
def trimChars (l : List Char) : List Char :=
  ((l.dropWhile jsWhitespaceChar).reverse.dropWhile jsWhitespaceChar).reverse

/-- JavaScript `String.prototype.trim`. -/
def jsTrim (s : String) : String :=
  String.mk (trimChars s.data)

/-- One splitting step of `String.prototype.split` on a separator character
class: cut at every separator character.  JavaScript splits on a regex
matching one or more separator characters; splitting at every single
separator instead only adds empty segments between adjacent separators, and
every use in the source filters empty segments out afterwards, so the
composed results coincide. -/
def splitChars (p : Char → Bool) (acc : List Char) : List Char → List String
  | [] => [String.mk acc.reverse]
  | c :: rest =>
      if p c then String.mk acc.reverse :: splitChars p [] rest
      else splitChars p (c :: acc) rest

/-- JavaScript `value.split(separators)` for a separator character class. -/
def jsSplit (p : Char → Bool) (s : String) : List String :=
  splitChars p [] s.data

/-- `trimmed.startsWith('[')`. -/
def startsWithBracket (s : String) : Bool :=
  match s.data with
  | c :: _ => c == '['
  | [] => false

/-- `trimmed.replaceAll(/(?:^\[|\]$)/g, '')`: the two anchored alternatives
independently remove exactly one leading `[` and exactly one trailing `]`
(when present). -/
def stripBrackets (s : String) : String :=
  let l1 := match s.data with
    | '[' :: rest => rest
    | l => l
  let l2 := match l1.reverse with
    | ']' :: rest => rest.reverse
    | _ => l1
  String.mk l2

mutual

/-- JavaScript `String()` coercion of a JSON-representable value. -/
def jsToString : JValue → String
  | JValue.null => "null"
  | JValue.bool b => if b then "true" else "false"
  | JValue.num lexeme => lexeme
  | JValue.str s => s
  | JValue.arr elems => String.intercalate "," (jsArrayElems elems)
  | JValue.obj _ => "[object Object]"

/-- Element rendering of `Array.prototype.join`: `null` renders as the empty
string. -/
def jsArrayElems : List JValue → List String
  | [] => []
  | JValue.null :: rest => "" :: jsArrayElems rest
  | v :: rest => jsToString v :: jsArrayElems rest

end

/-- Value of a hexadecimal digit, for `\uXXXX` escapes. -/
def hexDigitVal (c : Char) : Option Nat :=
  if '0' ≤ c ∧ c ≤ '9' then some (c.toNat - '0'.toNat)
  else if 'a' ≤ c ∧ c ≤ 'f' then some (c.toNat - 'a'.toNat + 10)
  else if 'A' ≤ c ∧ c ≤ 'F' then some (c.toNat - 'A'.toNat + 10)
  else none

/-- JSON insignificant whitespace. -/
def skipJsonWs : List Char → List Char
  | c :: cs =>
      if c == ' ' || c == '\t' || c == '\n' || c == '\r' then skipJsonWs cs
      else c :: cs
  | [] => []

/-- Body of a JSON string literal, after the opening quote; handles the JSON
escape sequences (a `\uXXXX` escape becomes the scalar with that code, lone
surrogate halves being outside the model). -/
def parseJsonStringBody (acc : List Char) : List Char → Option (String × List Char)
  | '\"' :: rest => some (String.mk acc.reverse, rest)
  | '\\' :: esc :: rest =>
      match esc with
      | '\"' => parseJsonStringBody ('\"' :: acc) rest
      | '\\' => parseJsonStringBody ('\\' :: acc) rest
      | '/' => parseJsonStringBody ('/' :: acc) rest
      | 'b' => parseJsonStringBody (Char.ofNat 8 :: acc) rest
      | 'f' => parseJsonStringBody (Char.ofNat 12 :: acc) rest
      | 'n' => parseJsonStringBody ('\n' :: acc) rest
      | 'r' => parseJsonStringBody ('\r' :: acc) rest
      | 't' => parseJsonStringBody ('\t' :: acc) rest
      | 'u' =>
          match rest with
          | h1 :: h2 :: h3 :: h4 :: rest2 =>
              match hexDigitVal h1, hexDigitVal h2, hexDigitVal h3, hexDigitVal h4 with
              | some a, some b, some c, some d =>
                  parseJsonStringBody
                    (Char.ofNat (((a * 16 + b) * 16 + c) * 16 + d) :: acc) rest2
              | _, _, _, _ => none
          | _ => none
      | _ => none
  | c :: rest =>
      if c.val < 0x20 then none else parseJsonStringBody (c :: acc) rest
  | [] => none

/-- Longest digit prefix. -/
def spanDigits : List Char → List Char × List Char
  | c :: rest =>
      if '0' ≤ c ∧ c ≤ '9' then
        let p := spanDigits rest
        (c :: p.1, p.2)
      else ([], c :: rest)
  | [] => ([], [])

/-- A JSON number literal, returned as its lexeme.  An ill-formed fraction or
exponent tail is left unconsumed, which makes the enclosing parse fail
exactly as JSON.parse does. -/
def parseJsonNumber (cs : List Char) : Option (String × List Char) :=
  let sign : List Char × List Char :=
    match cs with
    | '-' :: rest => (['-'], rest)
    | _ => ([], cs)
  let ip := spanDigits sign.2
  match ip.1 with
  | [] => none
  | '0' :: _ :: _ => none
  | _ =>
    let fp : List Char × List Char :=
      match ip.2 with
      | '.' :: r =>
          match spanDigits r with
          | ([], _) => ([], ip.2)
          | (ds, r2) => ('.' :: ds, r2)
      | _ => ([], ip.2)
    let ep : List Char × List Char :=
      match fp.2 with
      | e :: r =>
          if e == 'e' || e == 'E' then
            match r with
            | sgn :: r1 =>
                if sgn == '+' || sgn == '-' then
                  match spanDigits r1 with
                  | ([], _) => ([], fp.2)
                  | (ds, r2) => (e :: sgn :: ds, r2)
                else
                  match spanDigits r with
                  | ([], _) => ([], fp.2)
                  | (ds, r2) => (e :: ds, r2)
            | [] => ([], fp.2)
          else ([], fp.2)
      | [] => ([], fp.2)
    some (String.mk (sign.1 ++ ip.1 ++ fp.1 ++ ep.1), ep.2)

/-- Work items of the JSON parser: a value, the items of an array after the
first element position, or the members of an object after the first key
position. -/
inductive JsonTask where
  | value (cs : List Char) : JsonTask
  | arrItems (cs : List Char) (acc : List JValue) : JsonTask
  | objItems (cs : List Char) (acc : List (String × JValue)) : JsonTask

/-- Fuel-indexed recursive-descent JSON parser (single function so that the
recursion is structural on the fuel and evaluates inside the kernel). -/
def parseJsonStep : Nat → JsonTask → Option (JValue × List Char)
  | 0, _ => none
  | Nat.succ fuel, JsonTask.value cs =>
      match skipJsonWs cs with
      | '\"' :: rest => (parseJsonStringBody [] rest).map (fun p => (JValue.str p.1, p.2))
      | '[' :: rest =>
          (match skipJsonWs rest with
            | ']' :: rest2 => some (JValue.arr [], rest2)
            | cs2 => parseJsonStep fuel (JsonTask.arrItems cs2 []))
      | '{' :: rest =>
          (match skipJsonWs rest with
            | '}' :: rest2 => some (JValue.obj [], rest2)
            | cs2 => parseJsonStep fuel (JsonTask.objItems cs2 []))
      | 't' :: 'r' :: 'u' :: 'e' :: rest => some (JValue.bool true, rest)
      | 'f' :: 'a' :: 'l' :: 's' :: 'e' :: rest => some (JValue.bool false, rest)
      | 'n' :: 'u' :: 'l' :: 'l' :: rest => some (JValue.null, rest)
      | cs1 => (parseJsonNumber cs1).map (fun p => (JValue.num p.1, p.2))
  | Nat.succ fuel, JsonTask.arrItems cs acc =>
      match parseJsonStep fuel (JsonTask.value cs) with
      | none => none
      | some (v, rest) =>
          match skipJsonWs rest with
          | ',' :: rest2 => parseJsonStep fuel (JsonTask.arrItems rest2 (v :: acc))
          | ']' :: rest2 => some (JValue.arr (v :: acc).reverse, rest2)
          | _ => none
  | Nat.succ fuel, JsonTask.objItems cs acc =>
      match skipJsonWs cs with
      | '\"' :: rest =>
          match parseJsonStringBody [] rest with
          | none => none
          | some (key, rest1) =>
              match skipJsonWs rest1 with
              | ':' :: rest2 =>
                  match parseJsonStep fuel (JsonTask.value rest2) with
                  | none => none
                  | some (v, rest3) =>
                      match skipJsonWs rest3 with
                      | ',' :: rest4 =>
                          parseJsonStep fuel (JsonTask.objItems rest4 ((key, v) :: acc))
                      | '}' :: rest4 => some (JValue.obj ((key, v) :: acc).reverse, rest4)
                      | _ => none
              | _ => none
      | _ => none

/-- `JSON.parse`, as used by the normalizer: `none` models a thrown
SyntaxError.  The fuel bound strictly dominates the number of parsing steps,
every step consuming input or descending into it. -/
def jsonParse (s : String) : Option JValue :=
  match parseJsonStep (2 * s.data.length + 4) (JsonTask.value s.data) with
  | some (v, rest) =>
      match skipJsonWs rest with
      | [] => some v
      | _ => none
  | none => none

/-! ## errors.ts -/

/-- The two concrete failure kinds of the error taxonomy. -/
inductive AuthErrorKind where
  | unauthenticated : AuthErrorKind
  | forbidden : AuthErrorKind
deriving DecidableEq

/-- The fixed status code carried by each failure kind. -/
def AuthErrorKind.statusCode : AuthErrorKind → Nat
  | AuthErrorKind.unauthenticated => 401
  | AuthErrorKind.forbidden => 403

/-- An `AuthError` instance: a failure kind plus a human-readable message. -/
structure AuthError where
  kind : AuthErrorKind
  message : String
deriving DecidableEq

/-- Anything a JavaScript function can throw: an `AuthError` instance, or any
other error value (a caller's business-logic error, a malformed
configuration, ...), identified by an opaque description. -/
inductive ThrownError where
  | auth (e : AuthError) : ThrownError
  | other (tag : String) : ThrownError
deriving DecidableEq

/-! ## types.ts -/

/-- The normalized identity record. -/
structure UserContext where
  sub : String
  username : Option String
  email : Option String
  groups : List String
  scopes : List String
  rawClaims : JwtClaims

/-- A handler response: status code, header mapping, string body. -/
structure APIGatewayResponse where
  statusCode : Nat
  headers : List (String × String)
  body : String
deriving DecidableEq

/-! ## config.ts -/

/-- The process-wide configuration record. -/
structure AuthConfig where
  groupClaimKey : String
  scopeClaimKey : String
deriving DecidableEq

/-- `Partial<AuthConfig>`: `none` models an absent field. -/
structure PartialAuthConfig where
  groupClaimKey : Option String
  scopeClaimKey : Option String

/-- The built-in defaults. -/
def defaultConfig : AuthConfig :=
  { groupClaimKey := "cognito:groups", scopeClaimKey := "scope" }

/-- `configureAuth(options)`: spread-merge the supplied fields over the
current state, returning the pair (returned value, new state).  The module
state of config.ts is threaded explicitly. -/
def configureAuth (options : PartialAuthConfig) (current : AuthConfig) :
    AuthConfig × AuthConfig :=
  let next : AuthConfig :=
    { groupClaimKey := options.groupClaimKey.getD current.groupClaimKey
      scopeClaimKey := options.scopeClaimKey.getD current.scopeClaimKey }
  (next, next)

/-- `getConfig()` against an explicit state. -/
def getConfig (current : AuthConfig) : AuthConfig := current

/-- `resetConfig()`: the new state is a copy of the defaults. -/
def resetConfig (_ : AuthConfig) : AuthConfig := defaultConfig

/-! ## context.ts -/

/-- Coercion applied by `toTrimmedStrings` to each candidate:
`typeof value === 'string' ? value : String(value)`. -/
def coerceToString (v : JValue) : String :=
  match v with
  | JValue.str s => s
  | v => jsToString v

/-- The map/trim/filter stage of `toTrimmedStrings` (the `normalized`
local). -/
def trimmedNonEmpty (values : List JValue) : List String :=
  ((values.map coerceToString).map jsTrim).filter (fun value => decide (0 < value.length))

/-- `Array.from(new Set(l))`: a JavaScript Set iterates in insertion order,
so this keeps the first occurrence of each element. -/
def dedupFirstAux (seen : List String) : List String → List String
  | [] => []
  | x :: xs =>
      if seen.contains x then dedupFirstAux seen xs
      else x :: dedupFirstAux (x :: seen) xs

/-- `toTrimmedStrings`: coerce, trim, drop empties, then deduplicate
preserving first-occurrence order. -/
def toTrimmedStrings (values : List JValue) : List String :=
  dedupFirstAux [] (trimmedNonEmpty values)

/-- The per-entry trimming of the JSON-array branch of `parseStringList`:
`typeof entry === 'string' ? entry.trim() : String(entry).trim()`. -/
def coerceEntry (entry : JValue) : String :=
  match entry with
  | JValue.str s => jsTrim s
  | entry => jsTrim (jsToString entry)

/-- Case 2 of `parseStringList`: a bracketed list that is not valid JSON;
strip exactly one leading `[` and one trailing `]` and split the remaining
text on the separator class. -/
def bracketFallbackSplit (trimmed : String) (separators : Char → Bool) : List String :=
  let inner := jsTrim (stripBrackets trimmed)
  if inner = "" then []
  else ((jsSplit separators inner).map jsTrim).filter (fun part => part != "")

/-- `parseStringList(value, separators)` (the source's `trimmed` local is
inlined as `jsTrim value`). -/
def parseStringList (value : String) (separators : Char → Bool) : List String :=
  if jsTrim value = "" then []
  else if startsWithBracket (jsTrim value) then
    match jsonParse (jsTrim value) with
    | some (JValue.arr parsed) =>
        (parsed.map coerceEntry).filter (fun t => t != "")
    | _ => bracketFallbackSplit (jsTrim value) separators
  else ((jsSplit separators (jsTrim value)).map jsTrim).filter (fun part => part != "")

/-- The candidate tokens handed to `toTrimmedStrings` by
`normalizeStringOrArray`: the raw entries of an array value, the parsed
pieces of a string value, nothing otherwise (`none` models a missing
claim). -/
def candidateValues (value : Option JValue) (separators : Char → Bool) : List JValue :=
  match value with
  | some (JValue.arr entries) => entries
  | some (JValue.str s) => (parseStringList s separators).map JValue.str
  | _ => []

/-- `normalizeStringOrArray`: in the source each branch applies
`toTrimmedStrings` to its candidates (the default branch returning `[]`,
which is `toTrimmedStrings []`), so the function factors through
`candidateValues`. -/
def normalizeStringOrArray (value : Option JValue) (separators : Char → Bool) : List String :=
  toTrimmedStrings (candidateValues value separators)

/-- The group separator class `/[\s,]+/`. -/
def groupSeparators (c : Char) : Bool :=
  jsWhitespaceChar c || c == ','

/-- The scope separator class `/\s+/`. -/
def scopeSeparators (c : Char) : Bool :=
  jsWhitespaceChar c

/-- `normalizeGroups`. -/
def normalizeGroups (value : Option JValue) : List String :=
  normalizeStringOrArray value groupSeparators

/-- `normalizeScopes`. -/
def normalizeScopes (value : Option JValue) : List String :=
  normalizeStringOrArray value scopeSeparators

/-- `pickString`: accept only a string with non-empty trimmed content. -/
def pickString (value : Option JValue) : Option String :=
  match value with
  | some (JValue.str s) =>
      let trimmed := jsTrim s
      if 0 < trimmed.length then some trimmed else none
  | _ => none

/-- `buildUserContext(rawClaims)`, reading the current configuration.  In the
source the optional fields are attached by conditional assignment after
construction; here they are the corresponding `Option` values directly. -/
def buildUserContext (config : AuthConfig) (rawClaims : JwtClaims) :
    Except ThrownError UserContext :=
  match pickString (jsLookup rawClaims "sub") with
  | none =>
      Except.error (ThrownError.auth
        { kind := AuthErrorKind.unauthenticated, message := "Missing sub claim" })
  | some sub =>
      Except.ok
        { sub := sub
          username := pickString (jsLookup rawClaims "username")
          email := pickString (jsLookup rawClaims "email")
          groups := normalizeGroups (jsLookup rawClaims (getConfig config).groupClaimKey)
          scopes := normalizeScopes (jsLookup rawClaims (getConfig config).scopeClaimKey)
          rawClaims := rawClaims }

/-- `userInGroup`. -/
def userInGroup (user : UserContext) (group : String) : Bool :=
  user.groups.contains group

/-- `userInAnyGroup`. -/
def userInAnyGroup (user : UserContext) (groups : List String) : Bool :=
  groups.any (fun group => userInGroup user group)

/-- `hasScope`. -/
def hasScope (user : UserContext) (scope : String) : Bool :=
  user.scopes.contains scope

/-- `hasAnyScope`. -/
def hasAnyScope (user : UserContext) (scopes : List String) : Bool :=
  scopes.any (fun scope => hasScope user scope)

/-- The `string | string[]` argument of the enforcing checks. -/
inductive StrOrList where
  | single (s : String) : StrOrList
  | list (l : List String) : StrOrList

/-- `Array.isArray(required) ? required : [required]`. -/
def StrOrList.toList : StrOrList → List String
  | StrOrList.single s => [s]
  | StrOrList.list l => l

/-- The error thrown by `requireGroups`. -/
def forbiddenGroupError : ThrownError :=
  ThrownError.auth { kind := AuthErrorKind.forbidden, message := "User is not in the required group" }

/-- The error thrown by `requireScopes`. -/
def forbiddenScopeError : ThrownError :=
  ThrownError.auth { kind := AuthErrorKind.forbidden, message := "User does not have the required scope" }

/-- `requireGroups(user, required)`. -/
def requireGroups (user : UserContext) (required : StrOrList) :
    Except ThrownError UserContext :=
  let groups := required.toList
  if groups.length = 0 then Except.ok user
  else if !userInAnyGroup user groups then Except.error forbiddenGroupError
  else Except.ok user

/-- `requireScopes(user, required)`. -/
def requireScopes (user : UserContext) (required : StrOrList) :
    Except ThrownError UserContext :=
  let scopes := required.toList
  if scopes.length = 0 then Except.ok user
  else if !hasAnyScope user scopes then Except.error forbiddenScopeError
  else Except.ok user

/-! ## aws.ts -/

/-- JavaScript truthiness of a JSON-representable value (a number is falsy
exactly when its mantissa is all zeros). -/
def jsTruthy : JValue → Bool
  | JValue.null => false
  | JValue.bool b => b
  | JValue.str s => s != ""
  | JValue.num lexeme =>
      !((lexeme.data.takeWhile (fun c => !(c == 'e' || c == 'E'))).all
          (fun c => c == '0' || c == '-' || c == '.'))
  | JValue.arr _ => true
  | JValue.obj _ => true

/-- An incoming event, flattened to the two nested paths the adapters read:
`authorizerClaims` is the value at `requestContext.authorizer.claims` (the
REST/Cognito shape) and `authorizerJwt` the value at
`requestContext.authorizer.jwt` (the HTTP/JWT shape); `none` models an
absent path. -/
structure AnyJwtEvent where
  authorizerClaims : Option JValue
  authorizerJwt : Option JValue

/-- `ensureObjectClaims(claims)`: reject anything that is falsy or not of
object type.  A non-null object passes; an array also passes `typeof` and is
then a mapping with none of the string claim keys, modelled as the empty
mapping. -/
def ensureObjectClaims (claims : Option JValue) : Except ThrownError JwtClaims :=
  match claims with
  | some (JValue.obj fields) => Except.ok fields
  | some (JValue.arr _) => Except.ok ([] : List (String × JValue))
  | _ =>
      Except.error (ThrownError.auth
        { kind := AuthErrorKind.unauthenticated
          message := "Authorizer claims missing or malformed" })

/-- `extractRestClaims(event)`. -/
def extractRestClaims (event : AnyJwtEvent) : Except ThrownError JwtClaims :=
  ensureObjectClaims event.authorizerClaims

/-- `event?.requestContext?.authorizer?.jwt?.claims`: a property read on the
jwt value; optional chaining yields `undefined` unless the jwt value is an
object with a `claims` member. -/
def jwtClaimsValue (jwt : Option JValue) : Option JValue :=
  match jwt with
  | some (JValue.obj fields) => jsLookup fields "claims"
  | _ => none

/-- `extractHttpClaims(event)`. -/
def extractHttpClaims (event : AnyJwtEvent) : Except ThrownError JwtClaims :=
  ensureObjectClaims (jwtClaimsValue event.authorizerJwt)

/-- `userContextFromRestEvent`. -/
def userContextFromRestEvent (config : AuthConfig) (event : AnyJwtEvent) :
    Except ThrownError UserContext :=
  (extractRestClaims event).bind (buildUserContext config)

/-- `userContextFromHttpEvent`. -/
def userContextFromHttpEvent (config : AuthConfig) (event : AnyJwtEvent) :
    Except ThrownError UserContext :=
  (extractHttpClaims event).bind (buildUserContext config)

/-- `isHttpJwtEvent`: `Boolean(event.requestContext?.authorizer?.jwt)`. -/
def isHttpJwtEvent (event : AnyJwtEvent) : Bool :=
  match event.authorizerJwt with
  | some v => jsTruthy v
  | none => false

/-- `userContextFromEvent`: dispatch on the presence of the HTTP-shape
authorizer. -/
def userContextFromEvent (config : AuthConfig) (event : AnyJwtEvent) :
    Except ThrownError UserContext :=
  if isHttpJwtEvent event then userContextFromHttpEvent config event
  else userContextFromRestEvent config event

/-- `requireUser`. -/
def requireUser (config : AuthConfig) (event : AnyJwtEvent) :
    Except ThrownError UserContext :=
  userContextFromEvent config event

/-- The escaping of one character under `JSON.stringify` of a string. -/
def jsonEscapeChar (c : Char) : String :=
  if c == '\"' then "\\\""
  else if c == '\\' then "\\\\"
  else if c.val == 8 then "\\b"
  else if c == '\t' then "\\t"
  else if c == '\n' then "\\n"
  else if c.val == 12 then "\\f"
  else if c == '\r' then "\\r"
  else if c.val < 0x20 then
    "\\u00" ++ String.mk [Char.ofNat (if c.val.toNat / 16 < 10 then '0'.toNat + c.val.toNat / 16 else 'a'.toNat + c.val.toNat / 16 - 10),
                          Char.ofNat (if c.val.toNat % 16 < 10 then '0'.toNat + c.val.toNat % 16 else 'a'.toNat + c.val.toNat % 16 - 10)]
  else String.mk [c]

/-- `JSON.stringify({ message })`. -/
def jsonStringifyMessage (message : String) : String :=
  "\x7b\"message\":\"" ++ String.join (message.data.map jsonEscapeChar) ++ "\"\x7d"

/-- `buildResponse(statusCode, message)`. -/
def buildResponse (statusCode : Nat) (message : String) : APIGatewayResponse :=
  { statusCode := statusCode
    headers := [("Content-Type", "application/json")]
    body := jsonStringifyMessage message }

/-- `unauthenticatedResponse(event)`: no content is derived from the event. -/
def unauthenticatedResponse (_ : AnyJwtEvent) : APIGatewayResponse :=
  buildResponse 401 "Unauthorized"

/-- `forbiddenResponse(event)`. -/
def forbiddenResponse (_ : AnyJwtEvent) : APIGatewayResponse :=
  buildResponse 403 "Forbidden"

/-- The try block of `withUserContext`: run the full extraction pipeline and
then the caller's handler. -/
def runTryBlock (config : AuthConfig)
    (handler : AnyJwtEvent → UserContext → Except ThrownError APIGatewayResponse)
    (event : AnyJwtEvent) : Except ThrownError APIGatewayResponse :=
  match requireUser config event with
  | Except.error e => Except.error e
  | Except.ok user => handler event user

/-- The catch clause of `withUserContext`: map an `UnauthenticatedError`
instance to the 401 response and a `ForbiddenError` instance to the 403
response; rethrow anything else. -/
def catchClause (event : AnyJwtEvent) :
    Except ThrownError APIGatewayResponse → Except ThrownError APIGatewayResponse
  | Except.ok response => Except.ok response
  | Except.error (ThrownError.auth { kind := AuthErrorKind.unauthenticated, message := _ }) =>
      Except.ok (unauthenticatedResponse event)
  | Except.error (ThrownError.auth { kind := AuthErrorKind.forbidden, message := _ }) =>
      Except.ok (forbiddenResponse event)
  | Except.error e => Except.error e

/-- `withUserContext(handler)(event)`. -/
def withUserContext (config : AuthConfig)
    (handler : AnyJwtEvent → UserContext → Except ThrownError APIGatewayResponse)
    (event : AnyJwtEvent) : Except ThrownError APIGatewayResponse :=
  catchClause event (runTryBlock config handler event)

/-! ## Spec-side definitions used by the statements -/

/-- Index of the first occurrence of `a` in a list (the length when `a` is
absent). -/
def idxOf (a : String) : List String → Nat
  | [] => 0
  | b :: l => if b == a then 0 else idxOf a l + 1

/-- `result` lists exactly the elements of `candidates`, without duplicates,
in order of first occurrence in `candidates`. -/
def firstOccurrenceListing (result candidates : List String) : Prop :=
  (∀ x, x ∈ result ↔ x ∈ candidates) ∧
  List.Pairwise (fun a b => idxOf a candidates < idxOf b candidates) result

/-- The failure condition of claim C2: the mapping has no `sub` key, or its
value is not a string, or it is a string that is empty after trimming. -/
def subClaimBad (m : JwtClaims) : Bool :=
  match jsLookup m "sub" with
  | some (JValue.str s) => jsTrim s == ""
  | some _ => true
  | none => true

/-! ## Supporting lemmas -/

lemma string_length_pos_iff (s : String) : 0 < s.length ↔ s ≠ "" := by
  cases s with
  | mk l =>
    cases l with
    | nil => simp [String.length]
    | cons c cs =>
      simp only [String.length, List.length_cons]
      constructor
      · intro _ he
        have : (c :: cs) = ([] : List Char) := congrArg String.data he
        cases this
      · intro _
        exact Nat.succ_pos _

lemma dropWhile_self_idem (p : Char → Bool) (l : List Char) :
    (l.dropWhile p).dropWhile p = l.dropWhile p := by
  induction l with
  | nil => rfl
  | cons c cs ih =>
    rw [List.dropWhile_cons]
    by_cases h : p c
    · simpa [h] using ih
    · simp [List.dropWhile_cons, h]

lemma dropWhile_suffix_exists (p : Char → Bool) (l : List Char) :
    ∃ t, t ++ l.dropWhile p = l := by
  induction l with
  | nil => exact ⟨[], rfl⟩
  | cons c cs ih =>
    by_cases h : p c
    · obtain ⟨t, ht⟩ := ih
      exact ⟨c :: t, by simp [List.dropWhile_cons, h, ht]⟩
    · exact ⟨[], by simp [List.dropWhile_cons, h]⟩

lemma length_dropWhile_le (p : Char → Bool) (l : List Char) :
    (l.dropWhile p).length ≤ l.length := by
  induction l with
  | nil => simp
  | cons c cs ih =>
    rw [List.dropWhile_cons]
    by_cases h : p c
    · simp only [h, if_true]
      exact Nat.le_succ_of_le ih
    · simp [h]

lemma dropWhile_fixed_head (p : Char → Bool) (c : Char) (rest : List Char)
    (h : (c :: rest).dropWhile p = c :: rest) : p c = false := by
  by_cases hc : p c
  · exfalso
    rw [List.dropWhile_cons, if_pos hc] at h
    have hlen := congrArg List.length h
    have := length_dropWhile_le p rest
    simp only [List.length_cons] at hlen
    omega
  · simpa using hc

lemma trimChars_idem (l : List Char) : trimChars (trimChars l) = trimChars l := by
  unfold trimChars
  obtain ⟨s, hs⟩ :=
    dropWhile_suffix_exists jsWhitespaceChar (l.dropWhile jsWhitespaceChar).reverse
  have hy : l.dropWhile jsWhitespaceChar =
      ((l.dropWhile jsWhitespaceChar).reverse.dropWhile jsWhitespaceChar).reverse ++
        s.reverse := by
    conv_lhs => rw [← List.reverse_reverse (l.dropWhile jsWhitespaceChar), ← hs]
    rw [List.reverse_append]
  have hzdrop :
      (((l.dropWhile jsWhitespaceChar).reverse.dropWhile jsWhitespaceChar).reverse).dropWhile
          jsWhitespaceChar =
        ((l.dropWhile jsWhitespaceChar).reverse.dropWhile jsWhitespaceChar).reverse := by
    cases hz : ((l.dropWhile jsWhitespaceChar).reverse.dropWhile jsWhitespaceChar).reverse with
    | nil => rfl
    | cons c t =>
      have hy2 : l.dropWhile jsWhitespaceChar = c :: (t ++ s.reverse) := by
        rw [hy, hz]
        rfl
      have hfix : (l.dropWhile jsWhitespaceChar).dropWhile jsWhitespaceChar =
          l.dropWhile jsWhitespaceChar := dropWhile_self_idem jsWhitespaceChar l
      rw [hy2] at hfix
      have hc := dropWhile_fixed_head jsWhitespaceChar c (t ++ s.reverse) hfix
      rw [List.dropWhile_cons, hc]
      simp
  rw [hzdrop, List.reverse_reverse, dropWhile_self_idem]

lemma jsTrim_idem (s : String) : jsTrim (jsTrim s) = jsTrim s := by
  unfold jsTrim
  exact congrArg String.mk (trimChars_idem s.data)

lemma jsTrim_mk_data (s : String) : (jsTrim s).data = trimChars s.data := rfl

lemma contains_iff_mem (l : List String) (a : String) : l.contains a = true ↔ a ∈ l := by
  simp [List.contains]

lemma dedupFirstAux_mem (l : List String) :
    ∀ (seen : List String) (a : String),
      a ∈ dedupFirstAux seen l ↔ (a ∈ l ∧ a ∉ seen) := by
  induction l with
  | nil => intro seen a; simp [dedupFirstAux]
  | cons x xs ih =>
    intro seen a
    by_cases hx : seen.contains x = true
    · have hxseen : x ∈ seen := (contains_iff_mem seen x).mp hx
      rw [show dedupFirstAux seen (x :: xs) = dedupFirstAux seen xs by
        rw [dedupFirstAux, if_pos hx]]
      rw [ih seen a]
      constructor
      · rintro ⟨h1, h2⟩
        exact ⟨List.mem_cons_of_mem x h1, h2⟩
      · rintro ⟨h1, h2⟩
        rcases List.mem_cons.mp h1 with he | hm
        · exact absurd (he ▸ hxseen) h2
        · exact ⟨hm, h2⟩
    · have hxseen : x ∉ seen := fun hm => hx ((contains_iff_mem seen x).mpr hm)
      rw [show dedupFirstAux seen (x :: xs) = x :: dedupFirstAux (x :: seen) xs by
        rw [dedupFirstAux, if_neg hx]]
      rw [List.mem_cons, ih (x :: seen) a]
      constructor
      · rintro (he | ⟨h1, h2⟩)
        · exact ⟨he ▸ List.mem_cons_self x xs, he ▸ hxseen⟩
        · exact ⟨List.mem_cons_of_mem x h1, fun hm => h2 (List.mem_cons_of_mem x hm)⟩
      · rintro ⟨h1, h2⟩
        by_cases hax : a = x
        · exact Or.inl hax
        · rcases List.mem_cons.mp h1 with he | hm
          · exact absurd he hax
          · refine Or.inr ⟨hm, fun hmem => ?_⟩
            rcases List.mem_cons.mp hmem with he2 | hm2
            · exact hax he2
            · exact h2 hm2

lemma dedupFirstAux_nodup (l : List String) :
    ∀ seen : List String, (dedupFirstAux seen l).Nodup := by
  induction l with
  | nil => intro seen; simp [dedupFirstAux]
  | cons x xs ih =>
    intro seen
    by_cases hx : seen.contains x = true
    · rw [show dedupFirstAux seen (x :: xs) = dedupFirstAux seen xs by
        rw [dedupFirstAux, if_pos hx]]
      exact ih seen
    · rw [show dedupFirstAux seen (x :: xs) = x :: dedupFirstAux (x :: seen) xs by
        rw [dedupFirstAux, if_neg hx]]
      rw [List.nodup_cons]
      refine ⟨fun hmem => ?_, ih (x :: seen)⟩
      exact ((dedupFirstAux_mem xs (x :: seen) x).mp hmem).2 (List.mem_cons_self x seen)

lemma idxOf_cons_self (x : String) (l : List String) : idxOf x (x :: l) = 0 := by
  simp [idxOf]

lemma idxOf_cons_ne (x a : String) (l : List String) (h : x ≠ a) :
    idxOf a (x :: l) = idxOf a l + 1 := by
  simp [idxOf, h]

lemma dedupFirstAux_pairwise (l : List String) :
    ∀ seen : List String,
      List.Pairwise (fun a b => idxOf a l < idxOf b l) (dedupFirstAux seen l) := by
  induction l with
  | nil => intro seen; simp [dedupFirstAux]
  | cons x xs ih =>
    intro seen
    by_cases hx : seen.contains x = true
    · have hxseen : x ∈ seen := (contains_iff_mem seen x).mp hx
      rw [show dedupFirstAux seen (x :: xs) = dedupFirstAux seen xs by
        rw [dedupFirstAux, if_pos hx]]
      refine List.Pairwise.imp_of_mem ?_ (ih seen)
      intro a b ha hb hab
      have ha2 := (dedupFirstAux_mem xs seen a).mp ha
      have hb2 := (dedupFirstAux_mem xs seen b).mp hb
      have hax : x ≠ a := fun he => ha2.2 (he ▸ hxseen)
      have hbx : x ≠ b := fun he => hb2.2 (he ▸ hxseen)
      rw [idxOf_cons_ne x a xs hax, idxOf_cons_ne x b xs hbx]
      omega
    · rw [show dedupFirstAux seen (x :: xs) = x :: dedupFirstAux (x :: seen) xs by
        rw [dedupFirstAux, if_neg hx]]
      rw [List.pairwise_cons]
      constructor
      · intro b hb
        have hb2 := (dedupFirstAux_mem xs (x :: seen) b).mp hb
        have hbx : x ≠ b := fun he => hb2.2 (he ▸ List.mem_cons_self x seen)
        rw [idxOf_cons_self, idxOf_cons_ne x b xs hbx]
        exact Nat.succ_pos _
      · refine List.Pairwise.imp_of_mem ?_ (ih (x :: seen))
        intro a b ha hb hab
        have ha2 := (dedupFirstAux_mem xs (x :: seen) a).mp ha
        have hb2 := (dedupFirstAux_mem xs (x :: seen) b).mp hb
        have hax : x ≠ a := fun he => ha2.2 (he ▸ List.mem_cons_self x seen)
        have hbx : x ≠ b := fun he => hb2.2 (he ▸ List.mem_cons_self x seen)
        rw [idxOf_cons_ne x a xs hax, idxOf_cons_ne x b xs hbx]
        omega

lemma trimmedNonEmpty_clean (values : List JValue) :
    ∀ x ∈ trimmedNonEmpty values, x ≠ "" ∧ jsTrim x = x := by
  intro x hx
  unfold trimmedNonEmpty at hx
  rw [List.mem_filter] at hx
  obtain ⟨hmem, hpos⟩ := hx
  rw [List.mem_map] at hmem
  obtain ⟨y, _, rfl⟩ := hmem
  refine ⟨(string_length_pos_iff _).mp (of_decide_eq_true hpos), jsTrim_idem y⟩

lemma toTrimmedStrings_mem (values : List JValue) (a : String) :
    a ∈ toTrimmedStrings values ↔ a ∈ trimmedNonEmpty values := by
  unfold toTrimmedStrings
  rw [dedupFirstAux_mem]
  simp

lemma toTrimmedStrings_nodup (values : List JValue) : (toTrimmedStrings values).Nodup :=
  dedupFirstAux_nodup (trimmedNonEmpty values) []

lemma toTrimmedStrings_clean (values : List JValue) :
    ∀ x ∈ toTrimmedStrings values, x ≠ "" ∧ jsTrim x = x := by
  intro x hx
  exact trimmedNonEmpty_clean values x ((toTrimmedStrings_mem values x).mp hx)

lemma toTrimmedStrings_firstOcc (values : List JValue) :
    firstOccurrenceListing (toTrimmedStrings values) (trimmedNonEmpty values) :=
  ⟨toTrimmedStrings_mem values, dedupFirstAux_pairwise (trimmedNonEmpty values) []⟩

lemma pickString_eq_some (v : Option JValue) (t : String) (h : pickString v = some t) :
    t ≠ "" ∧ jsTrim t = t := by
  match v with
  | none => cases h
  | some JValue.null => cases h
  | some (JValue.bool b) => cases h
  | some (JValue.num lex) => cases h
  | some (JValue.arr es) => cases h
  | some (JValue.obj fs) => cases h
  | some (JValue.str s) =>
    unfold pickString at h
    dsimp at h
    by_cases hl : 0 < (jsTrim s).length
    · rw [if_pos hl] at h
      injection h with h
      subst h
      exact ⟨(string_length_pos_iff _).mp hl, jsTrim_idem s⟩
    · rw [if_neg hl] at h
      cases h

lemma pickString_sub_none_iff (m : JwtClaims) :
    pickString (jsLookup m "sub") = none ↔ subClaimBad m = true := by
  unfold subClaimBad
  cases hv : jsLookup m "sub" with
  | none => simp [pickString]
  | some v =>
    cases v with
    | str s =>
      by_cases h : jsTrim s = ""
      · have : ¬ 0 < (jsTrim s).length := fun hp => (string_length_pos_iff _).mp hp h
        simp [pickString, this, h]
      · have : 0 < (jsTrim s).length := (string_length_pos_iff _).mpr h
        simp [pickString, this, h]
    | null => simp [pickString]
    | bool b => simp [pickString]
    | num lex => simp [pickString]
    | arr es => simp [pickString]
    | obj fs => simp [pickString]

lemma buildUserContext_ok_iff (config : AuthConfig) (m : JwtClaims) (u : UserContext) :
    buildUserContext config m = Except.ok u ↔
      ∃ t, pickString (jsLookup m "sub") = some t ∧
        u = { sub := t
              username := pickString (jsLookup m "username")
              email := pickString (jsLookup m "email")
              groups := normalizeGroups (jsLookup m config.groupClaimKey)
              scopes := normalizeScopes (jsLookup m config.scopeClaimKey)
              rawClaims := m } := by
  unfold buildUserContext
  cases hp : pickString (jsLookup m "sub") with
  | none => simp
  | some t =>
    simp only [getConfig, Option.some.injEq]
    constructor
    · intro h
      injection h with h
      exact ⟨t, rfl, h.symm⟩
    · rintro ⟨t2, ht2, hu⟩
      subst ht2
      rw [hu]

lemma userInAnyGroup_iff (user : UserContext) (l : List String) :
    userInAnyGroup user l = true ↔ ∃ g ∈ l, g ∈ user.groups := by
  unfold userInAnyGroup userInGroup
  rw [List.any_eq_true]
  constructor
  · rintro ⟨g, hg, hc⟩
    exact ⟨g, hg, (contains_iff_mem _ _).mp hc⟩
  · rintro ⟨g, hg, hc⟩
    exact ⟨g, hg, (contains_iff_mem _ _).mpr hc⟩

lemma hasAnyScope_iff (user : UserContext) (l : List String) :
    hasAnyScope user l = true ↔ ∃ g ∈ l, g ∈ user.scopes := by
  unfold hasAnyScope hasScope
  rw [List.any_eq_true]
  constructor
  · rintro ⟨g, hg, hc⟩
    exact ⟨g, hg, (contains_iff_mem _ _).mp hc⟩
  · rintro ⟨g, hg, hc⟩
    exact ⟨g, hg, (contains_iff_mem _ _).mpr hc⟩

deriving instance DecidableEq for Except

/-! ## Claims -/

/-- C2: for every raw claim mapping, `buildUserContext` raises the
unauthenticated failure kind if and only if the mapping has no `sub` key, or
the value at `sub` is not a string, or it is a string that is empty after
trimming; in every other case it returns an identity record without
raising. -/
theorem buildUserContext_unauthenticated_iff (config : AuthConfig) (m : JwtClaims) :
    (buildUserContext config m =
        Except.error (ThrownError.auth
          { kind := AuthErrorKind.unauthenticated, message := "Missing sub claim" }) ↔
      subClaimBad m = true)
    ∧ (subClaimBad m = false → ∃ u, buildUserContext config m = Except.ok u) := by
  constructor
  · rw [← pickString_sub_none_iff]
    unfold buildUserContext
    cases hp : pickString (jsLookup m "sub") with
    | none => simp
    | some t => simp
  · intro hgood
    have hne : pickString (jsLookup m "sub") ≠ none := by
      intro hnone
      rw [pickString_sub_none_iff, hgood] at hnone
      cases hnone
    obtain ⟨t, ht⟩ := Option.ne_none_iff_exists'.mp hne
    refine ⟨_, (buildUserContext_ok_iff config m _).mpr ⟨t, ht, rfl⟩⟩

/-- C2 witness: a mapping with a usable `sub` claim is not rejected. -/
theorem buildUserContext_unauthenticated_iff_witness :
    subClaimBad ([("sub", JValue.str "alice")] : JwtClaims) = false ∧
    ∃ u, buildUserContext defaultConfig [("sub", JValue.str "alice")] = Except.ok u :=
  ⟨by decide,
   (buildUserContext_unauthenticated_iff defaultConfig [("sub", JValue.str "alice")]).2
     (by decide)⟩

/-- C4: the enforcing checks pass vacuously on an empty requirement list,
treat a single name as a one-element list, and on a non-empty list raise the
forbidden kind iff none of the required names is in the corresponding set,
returning the identical identity value otherwise. -/
theorem requireChecks_enforcement (user : UserContext) :
    requireGroups user (StrOrList.list []) = Except.ok user
    ∧ requireScopes user (StrOrList.list []) = Except.ok user
    ∧ (∀ s, requireGroups user (StrOrList.single s) = requireGroups user (StrOrList.list [s]))
    ∧ (∀ s, requireScopes user (StrOrList.single s) = requireScopes user (StrOrList.list [s]))
    ∧ (∀ l : List String, l ≠ [] →
        (requireGroups user (StrOrList.list l) = Except.error forbiddenGroupError ↔
          ∀ g ∈ l, g ∉ user.groups)
        ∧ ((∃ g ∈ l, g ∈ user.groups) →
            requireGroups user (StrOrList.list l) = Except.ok user))
    ∧ (∀ l : List String, l ≠ [] →
        (requireScopes user (StrOrList.list l) = Except.error forbiddenScopeError ↔
          ∀ g ∈ l, g ∉ user.scopes)
        ∧ ((∃ g ∈ l, g ∈ user.scopes) →
            requireScopes user (StrOrList.list l) = Except.ok user)) := by
  refine ⟨rfl, rfl, fun s => rfl, fun s => rfl, ?_, ?_⟩
  · intro l hl
    have hlen : ¬ (StrOrList.list l).toList.length = 0 := by
      simpa [StrOrList.toList] using fun hz => hl (List.length_eq_zero.mp hz)
    unfold requireGroups
    rw [if_neg hlen]
    by_cases hany : userInAnyGroup user (StrOrList.list l).toList = true
    · rw [if_neg (by rw [hany]; simp)]
      constructor
      · constructor
        · intro hcontra
          cases hcontra
        · intro hall
          obtain ⟨g, hg, hmem⟩ := (userInAnyGroup_iff user _).mp hany
          exact absurd hmem (hall g hg)
      · intro _
        rfl
    · have hfalse : userInAnyGroup user (StrOrList.list l).toList = false := by
        revert hany
        cases userInAnyGroup user (StrOrList.list l).toList <;> simp
      rw [if_pos (by rw [hfalse]; rfl)]
      constructor
      · constructor
        · intro _ g hg hmem
          exact hany ((userInAnyGroup_iff user _).mpr ⟨g, hg, hmem⟩)
        · intro _
          rfl
      · intro hex
        exact absurd ((userInAnyGroup_iff user _).mpr hex) hany
  · intro l hl
    have hlen : ¬ (StrOrList.list l).toList.length = 0 := by
      simpa [StrOrList.toList] using fun hz => hl (List.length_eq_zero.mp hz)
    unfold requireScopes
    rw [if_neg hlen]
    by_cases hany : hasAnyScope user (StrOrList.list l).toList = true
    · rw [if_neg (by rw [hany]; simp)]
      constructor
      · constructor
        · intro hcontra
          cases hcontra
        · intro hall
          obtain ⟨g, hg, hmem⟩ := (hasAnyScope_iff user _).mp hany
          exact absurd hmem (hall g hg)
      · intro _
        rfl
    · have hfalse : hasAnyScope user (StrOrList.list l).toList = false := by
        revert hany
        cases hasAnyScope user (StrOrList.list l).toList <;> simp
      rw [if_pos (by rw [hfalse]; rfl)]
      constructor
      · constructor
        · intro _ g hg hmem
          exact hany ((hasAnyScope_iff user _).mpr ⟨g, hg, hmem⟩)
        · intro _
          rfl
      · intro hex
        exact absurd ((hasAnyScope_iff user _).mpr hex) hany

/-- C4 witness: against an identity in group `admin`, requiring `x` raises
the forbidden kind and requiring `admin` returns the identity unchanged. -/
theorem requireChecks_enforcement_witness :
    requireGroups
        { sub := "u", username := none, email := none, groups := ["admin"],
          scopes := ["read"], rawClaims := ([] : JwtClaims) }
        (StrOrList.list ["x"]) = Except.error forbiddenGroupError
    ∧ requireGroups
        { sub := "u", username := none, email := none, groups := ["admin"],
          scopes := ["read"], rawClaims := ([] : JwtClaims) }
        (StrOrList.list ["admin"]) =
      Except.ok
        { sub := "u", username := none, email := none, groups := ["admin"],
          scopes := ["read"], rawClaims := ([] : JwtClaims) } :=
  ⟨(((requireChecks_enforcement _).2.2.2.2.1 ["x"] (by decide)).1).mpr
      (by decide),
   ((requireChecks_enforcement _).2.2.2.2.1 ["admin"] (by decide)).2
      ⟨"admin", by decide, by decide⟩⟩

/-- C7: the group separator class is whitespace-or-comma while the scope
separator class is whitespace only, so `read,write` stays one scope token,
`read write read` dedupes to two, and the group string `b, a, b` yields
`b`, `a` in first-occurrence order. -/
theorem separator_split_behavior :
    (∀ c, groupSeparators c = (jsWhitespaceChar c || c == ','))
    ∧ (∀ c, scopeSeparators c = jsWhitespaceChar c)
    ∧ normalizeScopes (some (JValue.str "read,write")) = ["read,write"]
    ∧ normalizeScopes (some (JValue.str "read write read")) = ["read", "write"]
    ∧ normalizeGroups (some (JValue.str "b, a, b")) = ["b", "a"] :=
  ⟨fun _ => rfl, fun _ => rfl, by decide, by decide, by decide⟩

/-- C8: `configureAuth` merges exactly the supplied fields over the current
configuration and returns the resulting full configuration; `resetConfig`
restores the built-in defaults `cognito:groups`/`scope`, which a subsequent
`getConfig` observes. -/
theorem config_merge_and_reset (options : PartialAuthConfig) (current : AuthConfig) :
    (configureAuth options current).1 = (configureAuth options current).2
    ∧ (configureAuth options current).2.groupClaimKey =
        options.groupClaimKey.getD current.groupClaimKey
    ∧ (configureAuth options current).2.scopeClaimKey =
        options.scopeClaimKey.getD current.scopeClaimKey
    ∧ resetConfig current = defaultConfig
    ∧ defaultConfig = { groupClaimKey := "cognito:groups", scopeClaimKey := "scope" }
    ∧ getConfig (resetConfig current) =
        { groupClaimKey := "cognito:groups", scopeClaimKey := "scope" } :=
  ⟨rfl, rfl, rfl, rfl, rfl, rfl⟩

/-- C1: the wrapper maps an unauthenticated extraction failure to the
canonical 401 JSON response, a forbidden failure raised by the handler to
the canonical 403 JSON response, and passes a normally completed handler's
response through unchanged. -/
theorem withUserContext_response_mapping (config : AuthConfig) (event : AnyJwtEvent)
    (handler : AnyJwtEvent → UserContext → Except ThrownError APIGatewayResponse) :
    ((∃ msg, requireUser config event =
        Except.error (ThrownError.auth
          { kind := AuthErrorKind.unauthenticated, message := msg })) →
      withUserContext config handler event =
        Except.ok { statusCode := 401, headers := [("Content-Type", "application/json")],
                    body := "\x7b\"message\":\"Unauthorized\"\x7d" })
    ∧ (∀ user msg, requireUser config event = Except.ok user →
        handler event user =
          Except.error (ThrownError.auth
            { kind := AuthErrorKind.forbidden, message := msg }) →
        withUserContext config handler event =
          Except.ok { statusCode := 403, headers := [("Content-Type", "application/json")],
                      body := "\x7b\"message\":\"Forbidden\"\x7d" })
    ∧ (∀ user response, requireUser config event = Except.ok user →
        handler event user = Except.ok response →
        withUserContext config handler event = Except.ok response) := by
  refine ⟨?_, ?_, ?_⟩
  · rintro ⟨msg, hreq⟩
    unfold withUserContext runTryBlock
    rw [hreq]
    rfl
  · intro user msg hreq hh
    unfold withUserContext runTryBlock
    rw [hreq]
    show catchClause event (handler event user) = _
    rw [hh]
    rfl
  · intro user response hreq hh
    unfold withUserContext runTryBlock
    rw [hreq]
    show catchClause event (handler event user) = _
    rw [hh]
    rfl

/-- C1 witness: the three wrapper outcomes at concrete events and
handlers. -/
theorem withUserContext_response_mapping_witness :
    withUserContext defaultConfig
        (fun _ _ => Except.ok { statusCode := 200, headers := [], body := "hi" })
        { authorizerClaims := none, authorizerJwt := none } =
      Except.ok { statusCode := 401, headers := [("Content-Type", "application/json")],
                  body := "\x7b\"message\":\"Unauthorized\"\x7d" }
    ∧ withUserContext defaultConfig
        (fun _ _ => Except.error forbiddenGroupError)
        { authorizerClaims := some (JValue.obj [("sub", JValue.str "user-1")]),
          authorizerJwt := none } =
      Except.ok { statusCode := 403, headers := [("Content-Type", "application/json")],
                  body := "\x7b\"message\":\"Forbidden\"\x7d" }
    ∧ withUserContext defaultConfig
        (fun _ _ => Except.ok { statusCode := 200, headers := [], body := "hi" })
        { authorizerClaims := some (JValue.obj [("sub", JValue.str "user-1")]),
          authorizerJwt := none } =
      Except.ok { statusCode := 200, headers := [], body := "hi" } :=
  ⟨(withUserContext_response_mapping defaultConfig
      { authorizerClaims := none, authorizerJwt := none }
      (fun _ _ => Except.ok { statusCode := 200, headers := [], body := "hi" })).1
      ⟨"Authorizer claims missing or malformed", rfl⟩,
   (withUserContext_response_mapping defaultConfig
      { authorizerClaims := some (JValue.obj [("sub", JValue.str "user-1")]),
        authorizerJwt := none }
      (fun _ _ => Except.error forbiddenGroupError)).2.1
      { sub := "user-1", username := none, email := none, groups := [], scopes := [],
        rawClaims := [("sub", JValue.str "user-1")] }
      "User is not in the required group" rfl rfl,
   (withUserContext_response_mapping defaultConfig
      { authorizerClaims := some (JValue.obj [("sub", JValue.str "user-1")]),
        authorizerJwt := none }
      (fun _ _ => Except.ok { statusCode := 200, headers := [], body := "hi" })).2.2
      { sub := "user-1", username := none, email := none, groups := [], scopes := [],
        rawClaims := [("sub", JValue.str "user-1")] }
      { statusCode := 200, headers := [], body := "hi" } rfl rfl⟩

/-- C3 counterexample: identity extraction succeeds on this event, the
handler raises the unauthenticated kind, and the wrapper does not propagate
that error — it catches it and returns the canonical 401 response
instead. -/
theorem withUserContext_catches_handler_unauthenticated :
    requireUser defaultConfig
        { authorizerClaims := some (JValue.obj [("sub", JValue.str "user-1")]),
          authorizerJwt := none } =
      Except.ok { sub := "user-1", username := none, email := none, groups := [],
                  scopes := [], rawClaims := [("sub", JValue.str "user-1")] }
    ∧ withUserContext defaultConfig
        (fun _ _ => Except.error (ThrownError.auth
          { kind := AuthErrorKind.unauthenticated, message := "session revoked" }))
        { authorizerClaims := some (JValue.obj [("sub", JValue.str "user-1")]),
          authorizerJwt := none } =
      Except.ok { statusCode := 401, headers := [("Content-Type", "application/json")],
                  body := "\x7b\"message\":\"Unauthorized\"\x7d" }
    ∧ withUserContext defaultConfig
        (fun _ _ => Except.error (ThrownError.auth
          { kind := AuthErrorKind.unauthenticated, message := "session revoked" }))
        { authorizerClaims := some (JValue.obj [("sub", JValue.str "user-1")]),
          authorizerJwt := none } ≠
      Except.error (ThrownError.auth
        { kind := AuthErrorKind.unauthenticated, message := "session revoked" }) :=
  ⟨rfl, rfl, by decide⟩

/-- C3 (amended): when extraction succeeds, an error raised by the handler
that is neither of the two AuthError kinds propagates unchanged to the
caller; an unauthenticated-kind error raised by the handler is instead
caught and mapped to the 401 response. -/
theorem withUserContext_propagates_other_errors (config : AuthConfig) (event : AnyJwtEvent)
    (handler : AnyJwtEvent → UserContext → Except ThrownError APIGatewayResponse)
    (user : UserContext) (tag msg : String)
    (hreq : requireUser config event = Except.ok user) :
    (handler event user = Except.error (ThrownError.other tag) →
      withUserContext config handler event = Except.error (ThrownError.other tag))
    ∧ (handler event user =
        Except.error (ThrownError.auth
          { kind := AuthErrorKind.unauthenticated, message := msg }) →
      withUserContext config handler event = Except.ok (unauthenticatedResponse event)) := by
  constructor
  · intro hh
    unfold withUserContext runTryBlock
    rw [hreq]
    show catchClause event (handler event user) = _
    rw [hh]
    rfl
  · intro hh
    unfold withUserContext runTryBlock
    rw [hreq]
    show catchClause event (handler event user) = _
    rw [hh]
    rfl

/-- C3 (amended) witness: a business-logic error propagates unchanged. -/
theorem withUserContext_propagates_other_errors_witness :
    withUserContext defaultConfig
        (fun _ _ => Except.error (ThrownError.other "db down"))
        { authorizerClaims := some (JValue.obj [("sub", JValue.str "user-1")]),
          authorizerJwt := none } =
      Except.error (ThrownError.other "db down") :=
  (withUserContext_propagates_other_errors defaultConfig
      { authorizerClaims := some (JValue.obj [("sub", JValue.str "user-1")]),
        authorizerJwt := none }
      (fun _ _ => Except.error (ThrownError.other "db down"))
      { sub := "user-1", username := none, email := none, groups := [], scopes := [],
        rawClaims := [("sub", JValue.str "user-1")] }
      "db down" "unused" rfl).1 rfl

/-- C9: under the default configuration, a mapping holding only a usable
`sub` string normalizes to an identity whose `sub` is the trimmed string and
whose group and scope sets are empty. -/
theorem buildUserContext_sub_only (s : String) (h : jsTrim s ≠ "") :
    buildUserContext defaultConfig ([("sub", JValue.str s)] : JwtClaims) =
      Except.ok { sub := jsTrim s, username := none, email := none, groups := [],
                  scopes := [], rawClaims := [("sub", JValue.str s)] } := by
  have hl : 0 < (jsTrim s).length := (string_length_pos_iff _).mpr h
  rw [buildUserContext_ok_iff]
  refine ⟨jsTrim s, ?_, ?_⟩
  · show pickString (some (JValue.str s)) = some (jsTrim s)
    unfold pickString
    dsimp
    rw [if_pos hl]
  · rfl

/-- C9 witness: evaluated at the padded string `" alice "`. -/
theorem buildUserContext_sub_only_witness :
    jsTrim " alice " ≠ "" ∧
    buildUserContext defaultConfig ([("sub", JValue.str " alice ")] : JwtClaims) =
      Except.ok { sub := "alice", username := none, email := none, groups := [],
                  scopes := [], rawClaims := [("sub", JValue.str " alice ")] } :=
  ⟨by decide, buildUserContext_sub_only " alice " (by decide)⟩

/-- C10: a lone empty-string requirement is wrapped into the one-element
list, which is non-empty, and can never be satisfied by a normalizer-built
identity, whose sets contain no empty entries — so both enforcing checks
always raise the forbidden kind on it. -/
theorem requireChecks_empty_string_requirement (config : AuthConfig) (m : JwtClaims)
    (u : UserContext) (h : buildUserContext config m = Except.ok u) :
    requireGroups u (StrOrList.single "") = Except.error forbiddenGroupError
    ∧ requireScopes u (StrOrList.single "") = Except.error forbiddenScopeError := by
  obtain ⟨t, hsub, hu⟩ := (buildUserContext_ok_iff config m u).mp h
  have hg : "" ∉ u.groups := by
    intro hmem
    rw [hu] at hmem
    exact absurd rfl (toTrimmedStrings_clean _ "" hmem).1
  have hs : "" ∉ u.scopes := by
    intro hmem
    rw [hu] at hmem
    exact absurd rfl (toTrimmedStrings_clean _ "" hmem).1
  constructor
  · have hfalse : userInAnyGroup u [""] = false := by
      cases hb : userInAnyGroup u [""] with
      | false => rfl
      | true =>
        obtain ⟨g, hgmem, hmem⟩ := (userInAnyGroup_iff u [""]).mp hb
        rw [List.mem_singleton.mp hgmem] at hmem
        exact absurd hmem hg
    unfold requireGroups
    rw [if_neg (by simp [StrOrList.toList]), if_pos (by rw [show (StrOrList.single "").toList = [""] from rfl, hfalse]; rfl)]
  · have hfalse : hasAnyScope u [""] = false := by
      cases hb : hasAnyScope u [""] with
      | false => rfl
      | true =>
        obtain ⟨g, hgmem, hmem⟩ := (hasAnyScope_iff u [""]).mp hb
        rw [List.mem_singleton.mp hgmem] at hmem
        exact absurd hmem hs
    unfold requireScopes
    rw [if_neg (by simp [StrOrList.toList]), if_pos (by rw [show (StrOrList.single "").toList = [""] from rfl, hfalse]; rfl)]

/-- C10 witness: evaluated against a normalizer-built identity with one
group. -/
theorem requireChecks_empty_string_requirement_witness :
    buildUserContext defaultConfig
        ([("sub", JValue.str "alice"), ("cognito:groups", JValue.str "admin")] : JwtClaims) =
      Except.ok { sub := "alice", username := none, email := none, groups := ["admin"],
                  scopes := [],
                  rawClaims := [("sub", JValue.str "alice"),
                                ("cognito:groups", JValue.str "admin")] }
    ∧ requireGroups
        { sub := "alice", username := none, email := none, groups := ["admin"],
          scopes := [],
          rawClaims := [("sub", JValue.str "alice"),
                        ("cognito:groups", JValue.str "admin")] }
        (StrOrList.single "") = Except.error forbiddenGroupError
    ∧ requireScopes
        { sub := "alice", username := none, email := none, groups := ["admin"],
          scopes := [],
          rawClaims := [("sub", JValue.str "alice"),
                        ("cognito:groups", JValue.str "admin")] }
        (StrOrList.single "") = Except.error forbiddenScopeError :=
  ⟨rfl,
   (requireChecks_empty_string_requirement defaultConfig
      [("sub", JValue.str "alice"), ("cognito:groups", JValue.str "admin")]
      { sub := "alice", username := none, email := none, groups := ["admin"],
        scopes := [],
        rawClaims := [("sub", JValue.str "alice"),
                      ("cognito:groups", JValue.str "admin")] } rfl).1,
   (requireChecks_empty_string_requirement defaultConfig
      [("sub", JValue.str "alice"), ("cognito:groups", JValue.str "admin")]
      { sub := "alice", username := none, email := none, groups := ["admin"],
        scopes := [],
        rawClaims := [("sub", JValue.str "alice"),
                      ("cognito:groups", JValue.str "admin")] } rfl).2⟩

/-- C5: every identity record built by the normalizer has a non-empty,
trim-fixed `sub`; group and scope sets without empty or whitespace-only
entries and without duplicates, each listing its entries in first-occurrence
order among the candidate tokens; and the raw claim mapping unmodified. -/
theorem buildUserContext_identity_invariants (config : AuthConfig) (m : JwtClaims)
    (u : UserContext) (h : buildUserContext config m = Except.ok u) :
    (u.sub ≠ "" ∧ jsTrim u.sub = u.sub)
    ∧ (u.groups.Nodup ∧ ∀ x ∈ u.groups, x ≠ "" ∧ jsTrim x = x)
    ∧ (u.scopes.Nodup ∧ ∀ x ∈ u.scopes, x ≠ "" ∧ jsTrim x = x)
    ∧ firstOccurrenceListing u.groups
        (trimmedNonEmpty (candidateValues (jsLookup m config.groupClaimKey) groupSeparators))
    ∧ firstOccurrenceListing u.scopes
        (trimmedNonEmpty (candidateValues (jsLookup m config.scopeClaimKey) scopeSeparators))
    ∧ u.rawClaims = m := by
  obtain ⟨t, hsub, hu⟩ := (buildUserContext_ok_iff config m u).mp h
  subst hu
  exact ⟨pickString_eq_some _ _ hsub,
    ⟨toTrimmedStrings_nodup _, toTrimmedStrings_clean _⟩,
    ⟨toTrimmedStrings_nodup _, toTrimmedStrings_clean _⟩,
    toTrimmedStrings_firstOcc _, toTrimmedStrings_firstOcc _, rfl⟩

/-- C5 witness: evaluated at a mapping with a duplicated group token. -/
theorem buildUserContext_identity_invariants_witness :
    buildUserContext defaultConfig
        ([("sub", JValue.str "alice"), ("cognito:groups", JValue.str "b, a, b")] : JwtClaims) =
      Except.ok { sub := "alice", username := none, email := none, groups := ["b", "a"],
                  scopes := [],
                  rawClaims := [("sub", JValue.str "alice"),
                                ("cognito:groups", JValue.str "b, a, b")] }
    ∧ (("alice" : String) ≠ "" ∧ jsTrim "alice" = "alice")
    ∧ ((["b", "a"] : List String).Nodup ∧ ∀ x ∈ (["b", "a"] : List String), x ≠ "" ∧ jsTrim x = x)
    ∧ (([] : List String).Nodup ∧ ∀ x ∈ ([] : List String), x ≠ "" ∧ jsTrim x = x)
    ∧ firstOccurrenceListing ["b", "a"]
        (trimmedNonEmpty (candidateValues
          (jsLookup [("sub", JValue.str "alice"), ("cognito:groups", JValue.str "b, a, b")]
            defaultConfig.groupClaimKey) groupSeparators))
    ∧ firstOccurrenceListing []
        (trimmedNonEmpty (candidateValues
          (jsLookup [("sub", JValue.str "alice"), ("cognito:groups", JValue.str "b, a, b")]
            defaultConfig.scopeClaimKey) scopeSeparators))
    ∧ ([("sub", JValue.str "alice"), ("cognito:groups", JValue.str "b, a, b")] : JwtClaims) =
        [("sub", JValue.str "alice"), ("cognito:groups", JValue.str "b, a, b")] :=
  ⟨rfl,
   buildUserContext_identity_invariants defaultConfig
     [("sub", JValue.str "alice"), ("cognito:groups", JValue.str "b, a, b")]
     { sub := "alice", username := none, email := none, groups := ["b", "a"],
       scopes := [],
       rawClaims := [("sub", JValue.str "alice"),
                     ("cognito:groups", JValue.str "b, a, b")] } rfl⟩

/-- C6: a string claim value that starts with `[` after trimming is first
tried as a JSON array, each element then becoming a candidate token; when
JSON parsing fails or yields a non-array, exactly one leading `[` and one
trailing `]` are stripped and the rest is delimiter-split — so
`'["team1","team2"]'` parses as an array and `"[admin, editor]"` falls back
to splitting. -/
theorem parseStringList_bracket_parsing :
    (∀ (s : String) (separators : Char → Bool),
        startsWithBracket (jsTrim s) = true →
        (∀ elems, jsonParse (jsTrim s) = some (JValue.arr elems) →
            parseStringList s separators = (elems.map coerceEntry).filter (fun t => t != ""))
        ∧ ((∀ elems, jsonParse (jsTrim s) ≠ some (JValue.arr elems)) →
            parseStringList s separators = bracketFallbackSplit (jsTrim s) separators))
    ∧ normalizeGroups (some (JValue.str "[\"team1\",\"team2\"]")) = ["team1", "team2"]
    ∧ normalizeGroups (some (JValue.str "[admin, editor]")) = ["admin", "editor"] := by
  refine ⟨?_, by decide, by decide⟩
  intro s separators hstart
  have hne : jsTrim s ≠ "" := by
    intro he
    rw [he] at hstart
    cases hstart
  constructor
  · intro elems hj
    unfold parseStringList
    rw [if_neg hne, if_pos hstart, hj]
  · intro hj
    unfold parseStringList
    rw [if_neg hne, if_pos hstart]
    cases hc : jsonParse (jsTrim s) with
    | none => rfl
    | some v =>
      cases v with
      | arr elems => exact absurd hc (hj elems)
      | null => rfl
      | bool b => rfl
      | num lexeme => rfl
      | str s2 => rfl
      | obj fields => rfl

/-- C6 witness: the fallback branch evaluated at the malformed bracket
string `"[x"`. -/
theorem parseStringList_bracket_parsing_witness :
    parseStringList "[\"a\",\"b\"]" groupSeparators =
        (([JValue.str "a", JValue.str "b"].map coerceEntry).filter (fun t => t != ""))
    ∧ parseStringList "[x" groupSeparators = bracketFallbackSplit (jsTrim "[x") groupSeparators :=
  ⟨(parseStringList_bracket_parsing.1 "[\"a\",\"b\"]" groupSeparators rfl).1
      [JValue.str "a", JValue.str "b"] rfl,
   (parseStringList_bracket_parsing.1 "[x" groupSeparators rfl).2
      (fun _ hcontra => Option.noConfusion hcontra)⟩
